import Mathlib

/-!
Shallow embedding of the txray calldata resolution engine
(src/decode.ts, src/decoder-registry.ts, src/selectors.ts, src/abis.ts).

Payloads are the hex strings the source manipulates (`0x`-prefixed,
JavaScript string operations such as `slice`, `toLowerCase`, `startsWith`,
`length` become the corresponding Lean `String` operations on the same
character counts).  JavaScript exceptions are modelled with `Except Unit`;
`null`/`undefined` results with `Option`.  File/network I/O performed by
the selector cache is made explicit: the persisted file is a field of the
state, and the remote services are oracles supplied as an environment,
with the list of remote queries actually issued returned alongside the
result.
-/

namespace Txray

/-- Address-label map (`Labels` in src/labels.ts): a record from address
string to display name.  Only threaded through the resolver, never
inspected by it. -/
abbrev Labels := List (String × String)

/-! JavaScript string primitives used by the source (`slice`,
`toLowerCase`, `startsWith`), written directly over the character list so
that they evaluate by kernel reduction.  The payloads involved are ASCII
hex strings, where JavaScript UTF-16 lengths coincide with character
counts and `toLowerCase` is the ASCII mapping. -/

/-- `s.slice(0, n)`. -/
def jsTake (s : String) (n : Nat) : String := ⟨s.data.take n⟩

/-- `s.slice(n)`. -/
def jsDrop (s : String) (n : Nat) : String := ⟨s.data.drop n⟩

/-- `s.toLowerCase()` (ASCII). -/
def jsLower (s : String) : String := ⟨s.data.map Char.toLower⟩

/-- `s.startsWith(pre)`. -/
def jsStartsWith (s pre : String) : Bool := s.data.take pre.data.length == pre.data

/-- A dynamically typed decoded argument value (the `unknown` values viem
produces: bigint, boolean, string, array, plain object, or JavaScript
`undefined` from an out-of-range index). -/
inductive Value where
  | vInt (n : Int)
  | vBool (b : Bool)
  | vStr (s : String)
  | vList (items : List Value)
  | vObj (fields : List (String × Value))
  | undef

/-- One `{name, type, value}` argument record of a `DecodedCall`
(src/decode.ts `DecodedCall['args']` elements). -/
structure Arg where
  name : String
  type : String
  value : Value

/-- A typed parameter of an ABI item (`inputs` entries in src/abis.ts). -/
structure Param where
  name : String
  type : String

/-- One entry of `ALL_ABIS` (src/abis.ts `AbiItem`): a kind tag, a name and
an optional ordered parameter list. -/
structure AbiItem where
  type : String
  name : String
  inputs : Option (List Param)

/-- `DecodedCall` (src/decode.ts lines 9-15).  Recursive through the
optional `nested` list, hence an inductive with projections. -/
inductive DecodedCall where
  | mk (selector : String) (functionName : Option String)
      (signature : Option String) (args : List Arg)
      (nested : Option (List DecodedCall))

def DecodedCall.selector : DecodedCall → String
  | .mk s _ _ _ _ => s

def DecodedCall.functionName : DecodedCall → Option String
  | .mk _ f _ _ _ => f

def DecodedCall.signature : DecodedCall → Option String
  | .mk _ _ sig _ _ => sig

def DecodedCall.args : DecodedCall → List Arg
  | .mk _ _ _ a _ => a

def DecodedCall.nested : DecodedCall → Option (List DecodedCall)
  | .mk _ _ _ _ n => n

/-- `DecodedData`, a plugin's structured result
(src/decoder-registry.ts lines 15-20). -/
inductive DecodedData where
  | mk (name : String) (description : Option String)
      (params : List Arg) (nested : Option (List DecodedData))

def DecodedData.name : DecodedData → String
  | .mk n _ _ _ => n

def DecodedData.params : DecodedData → List Arg
  | .mk _ _ p _ => p

def DecodedData.nested : DecodedData → Option (List DecodedData)
  | .mk _ _ _ ns => ns

/-- `DecodeContext` (src/decoder-registry.ts lines 8-13). -/
structure DecodeContext where
  labels : Labels
  selector : String
  address : Option String
  chainId : Option Int

/-- The relevant part of `Partial<DecodeContext>` accepted by
`decodeCalldata` (only `address` and `chainId` are read from it). -/
structure PartialDecodeContext where
  address : Option String
  chainId : Option Int

/-- A decoder plugin (src/decoder-registry.ts lines 22-27).  `match` is a
Lean keyword, so the match predicate is named `matchFn`.  Both functions
may throw, modelled by `Except Unit`. -/
structure Decoder where
  name : String
  priority : Option Int
  matchFn : String → DecodeContext → Except Unit Bool
  decode : String → DecodeContext → Except Unit (Option DecodedData)

/-! ## Interface catalog (src/abis.ts and the catalog decode stage) -/

/-- The built-in content of `ALL_ABIS` (src/abis.ts line 23): the two
`COMMON_ERRORS_ABI` items from src/errors.ts.  The repository ships no
`abi/` directory, so `loadAbis` adds nothing to this list. -/
def allAbisBase : List AbiItem :=
  [ ⟨"error", "Error", some [⟨"message", "string"⟩]⟩,
    ⟨"error", "Panic", some [⟨"code", "uint256"⟩]⟩ ]

/-- Oracle for structurally decoding one ABI value of a given type tag from
a hex-string body, returning the value and the remaining input.  This
stands for the external ABI codec (viem); the resolution engine only
observes success or failure per parameter list. -/
abbrev DecodeOracle := String → String → Option (Value × String)

/-- Modelled from the spec (§4.1): positionally decode a body against an
ordered parameter list, one value per parameter, via the ABI-codec
oracle. -/
def decodeParams (oracle : DecodeOracle) : List Param → String → Option (List Value × String)
  | [], rest => some ([], rest)
  | p :: ps, s =>
    match oracle p.type s with
    | none => none
    | some (v, s1) =>
      match decodeParams oracle ps s1 with
      | none => none
      | some (vs, s2) => some (v :: vs, s2)

/-- Modelled from the spec (§4.1 `resolveByCatalog`): iterate the function
descriptors in catalog order and accept the first whose parameter list
structurally decodes the payload body (the bytes after the selector). -/
def resolveByCatalog (oracle : DecodeOracle) : List AbiItem → String → Option (AbiItem × List Value)
  | [], _ => none
  | item :: rest, body =>
    if item.type == "function" then
      match decodeParams oracle (item.inputs.getD []) body with
      | some (vals, _) => some (item, vals)
      | none => resolveByCatalog oracle rest body
    else
      resolveByCatalog oracle rest body

/-- Modelled from the spec: viem's `decodeFunctionData({abi, data})` as the
source uses it — throws when no catalog function decodes the payload,
otherwise yields the matched function's name and its decoded argument
values. -/
def decodeFunctionData (oracle : DecodeOracle) (abi : List AbiItem) (data : String) :
    Except Unit (String × List Value) :=
  match resolveByCatalog oracle abi (jsDrop data 10) with
  | some (item, vals) => .ok (item.name, vals)
  | none => .error ()

/-! The argument-list construction shared by the catalog branch of
`decodeCalldata` (src/decode.ts lines 218-242) and `tryDecodeNested`
(lines 109-133): re-find the ABI item by function name and, if it has an
`inputs` list, name and type each argument from it (indexing the decoded
values, JavaScript `undefined` past the end); otherwise fall back to
`arg<i>`/`unknown` records. -/

/-- The `for i = 0; i < abiItem.inputs.length` loop (src/decode.ts
lines 226-233 and 117-124), index threaded explicitly. -/
def namedArgs (resultArgs : List Value) : List Param → Nat → List Arg
  | [], _ => []
  | input :: rest, i =>
    ⟨input.name, input.type, (resultArgs.get? i).getD Value.undef⟩ ::
      namedArgs resultArgs rest (i + 1)

/-- The `else` loop (lines 234-242 / 126-132): `arg<i>`/`unknown` records
straight from the decoded values. -/
def unknownArgs : List Value → Nat → List Arg
  | [], _ => []
  | v :: rest, i => ⟨"arg" ++ toString i, "unknown", v⟩ :: unknownArgs rest (i + 1)

def catalogArgs (abi : List AbiItem) (functionName : String) (resultArgs : List Value) : List Arg :=
  match abi.find? (fun item => item.type == "function" && item.name == functionName) with
  | some item =>
    match item.inputs with
    | some inputs => namedArgs resultArgs inputs 0
    | none => unknownArgs resultArgs 0
  | none => unknownArgs resultArgs 0

/-! ## Decoder plugin registry (src/decoder-registry.ts) -/

/-- The effective priority used by the sort comparator:
`b.priority ?? 0` (src/decoder-registry.ts line 101). -/
def prio (d : Decoder) : Int := d.priority.getD 0

/-- Insert a decoder into an already priority-sorted list, before the first
entry of strictly smaller priority.  Equal priorities keep the existing
entries first, which is exactly the placement a stable descending sort
gives to an element taken from earlier in the input. -/
def insertDesc (d : Decoder) : List Decoder → List Decoder
  | [] => [d]
  | e :: rest => if prio e > prio d then e :: insertDesc d rest else d :: e :: rest

/-- `registeredDecoders.sort((a, b) => (b.priority ?? 0) - (a.priority ?? 0))`
(src/decoder-registry.ts line 101).  `Array.prototype.sort` is stable
(ES2019), and a stable sort under a total comparator has a unique result,
here realised as stable insertion sort by descending `prio`. -/
def sortDecoders : List Decoder → List Decoder
  | [] => []
  | d :: rest => insertDesc d (sortDecoders rest)

/-- `loadAllDecoders` (src/decoder-registry.ts lines 93-102).  The
directory scan and dynamic import are file-system I/O; the decoders
discovered in the project directory and in the user directory are supplied
as arguments, each list in its discovery order.  The combined list
(project before user) is sorted by descending priority. -/
def loadAllDecoders (projectDecoders userDecoders : List Decoder) : List Decoder :=
  sortDecoders (projectDecoders ++ userDecoders)

/-- `findDecoder` (src/decoder-registry.ts lines 113-120): first decoder in
registry order whose `match` returns true.  An exception thrown by a
`match` predicate is not caught here and propagates. -/
def findDecoder : List Decoder → String → DecodeContext → Except Unit (Option Decoder)
  | [], _, _ => .ok none
  | d :: rest, data, context =>
    match d.matchFn data context with
    | .error e => .error e
    | .ok true => .ok (some d)
    | .ok false => findDecoder rest data context

/-- `decodeWithPlugins` (src/decoder-registry.ts lines 122-131): locate the
first match and invoke its `decode`; an exception thrown by `decode` is
caught and turned into `null`. -/
def decodeWithPlugins (decoders : List Decoder) (data : String) (context : DecodeContext) :
    Except Unit (Option DecodedData) :=
  match findDecoder decoders data context with
  | .error e => .error e
  | .ok none => .ok none
  | .ok (some d) =>
    match d.decode data context with
    | .ok r => .ok r
    | .error _ => .ok none

/-! ## Selector resolution cache (src/selectors.ts) -/

/-- `SelectorCache = Record<string, string[]>` (src/selectors.ts line 5),
as an association list in key-insertion order. -/
abbrev SelectorCache := List (String × List String)

/-- JavaScript record assignment `c[k] = v`: overwrite in place when the
key exists, otherwise append. -/
def recordSet (c : SelectorCache) (k : String) (v : List String) : SelectorCache :=
  if (c.lookup k).isSome then
    c.map (fun p => bif p.1 == k then (k, v) else p)
  else
    c ++ [(k, v)]

/-- The module-level state of src/selectors.ts: the lazily loaded
in-memory `cache`, the `cacheModified` flag, and the persisted cache file
(`none` when absent or unparseable, which `loadCache` treats alike). -/
structure SelectorState where
  cache : Option SelectorCache
  cacheModified : Bool
  file : Option SelectorCache

/-- The two remote signature databases, in the fixed order the source
queries them. -/
inductive Remote where
  | fourbyte
  | openchain

/-- The remote services as oracles.  `fetchFrom4byte` and
`fetchFromOpenchain` (src/selectors.ts lines 53-87) already map every
transport failure, timeout, non-ok status and parse error to `[]`, so each
is faithfully a total function from selector to signature list. -/
structure RemoteEnv where
  fetchFrom4byte : String → List String
  fetchFromOpenchain : String → List String

/-- `loadCache` (src/selectors.ts lines 22-35): return the in-memory cache
if present, else load it (once) from the persisted file, else start
empty. -/
def loadCache (st : SelectorState) : SelectorCache × SelectorState :=
  match st.cache with
  | some c => (c, st)
  | none =>
    match st.file with
    | some c => (c, { st with cache := some c })
    | none => ([], { st with cache := some [] })

/-- `saveCache` (src/selectors.ts lines 37-45): flush the in-memory cache
to the file, only when modified. -/
def saveCache (st : SelectorState) : SelectorState :=
  if st.cacheModified then
    match st.cache with
    | some c => { st with file := some c, cacheModified := false }
    | none => st
  else st

/-- `addToCache` (src/selectors.ts lines 47-51). -/
def addToCache (st : SelectorState) (selector : String) (signatures : List String) : SelectorState :=
  let (c, st1) := loadCache st
  { st1 with cache := some (recordSet c (jsLower selector) signatures), cacheModified := true }

/-- `lookupSelector` (src/selectors.ts lines 89-112).  Besides the
signature list and the updated state, the result records which remote
databases were actually queried, in order, so that the absence of remote
I/O is expressible. -/
def lookupSelector (env : RemoteEnv) (st : SelectorState) (selector : String) :
    List String × SelectorState × List (Remote × String) :=
  let normalizedSelector := jsLower selector
  if normalizedSelector.length != 10 || !jsStartsWith normalizedSelector "0x" then
    ([], st, [])
  else
    let (c, st1) := loadCache st
    match c.lookup normalizedSelector with
    | some cached => (cached, st1, [])
    | none =>
      let sigs4 := env.fetchFrom4byte normalizedSelector
      let (signatures, queries) :=
        if sigs4.length == 0 then
          (env.fetchFromOpenchain normalizedSelector,
           [(Remote.fourbyte, normalizedSelector), (Remote.openchain, normalizedSelector)])
        else
          (sigs4, [(Remote.fourbyte, normalizedSelector)])
      let st2 := addToCache st1 normalizedSelector signatures
      let st3 := saveCache st2
      (signatures, st3, queries)

/-! ## Nested-call detection (src/decode.ts lines 100-182)

`tryDecodeNested` and `detectNestedCalls` recurse into each other through
the values the ABI-codec oracle produced, which need not shrink, so the
embedding threads an explicit fuel; the source relies on the host call
stack instead (the spec notes the reference design imposes no bound).  The
scan loops are written once, parameterised over the recursive decode call
(`recurse`), so that `tryDecodeNested` is plain structural recursion on
the fuel. -/

/-- JavaScript `typeof v === 'object' && v !== null`: true for arrays and
plain objects. -/
def isObjectLike : Value → Bool
  | .vList _ => true
  | .vObj _ => true
  | _ => false

/-- JavaScript `Object.values`: the field values of an object, or the
elements of an array. -/
def objectValues : Value → List Value
  | .vList items => items
  | .vObj fields => fields.map (fun f => f.2)
  | _ => []

/-- One candidate check of `detectNestedCalls`: a string value starting
with `0x` and longer than 10 characters is handed to the recursive decode;
a successful decode contributes one entry, anything else none. -/
def tryCandidate (recurse : String → Option DecodedCall) (v : Value) : List DecodedCall :=
  match v with
  | .vStr s =>
    if jsStartsWith s "0x" && s.length > 10 then (recurse s).toList else []
  | _ => []

/-- The loop over `Object.values` of an object-like element
(src/decode.ts lines 168-175). -/
def scanObjectValues (recurse : String → Option DecodedCall) (vs : List Value) : List DecodedCall :=
  vs.flatMap (tryCandidate recurse)

/-- The inner loop over the elements of an array-valued argument
(src/decode.ts lines 158-177): each element is checked as a string
candidate, then, if object-like, its `Object.values` are checked. -/
def scanItems (recurse : String → Option DecodedCall) (items : List Value) : List DecodedCall :=
  items.flatMap (fun item =>
    tryCandidate recurse item ++
      (if isObjectLike item then scanObjectValues recurse (objectValues item) else []))

/-- The body of the outer loop of `detectNestedCalls` for one argument:
the top-level string check (line 150) followed by the array scan
(lines 157-178). -/
def scanArgValue (recurse : String → Option DecodedCall) (v : Value) : List DecodedCall :=
  tryCandidate recurse v ++
    (match v with
     | .vList items => scanItems recurse items
     | _ => [])

/-- The body of `detectNestedCalls` (src/decode.ts lines 146-182),
parameterised over the recursive decode. -/
def detectNestedCallsAux (recurse : String → Option DecodedCall) (args : List Arg) : List DecodedCall :=
  args.flatMap (fun arg => scanArgValue recurse arg.value)

/-- `tryDecodeNested` (src/decode.ts lines 100-144): reject payloads
shorter than 10 characters, decode against the catalog, rebuild named
arguments, and recurse into them; any decode failure yields `null`. -/
def tryDecodeNested (oracle : DecodeOracle) (abi : List AbiItem) (labels : Labels) :
    Nat → String → Option DecodedCall
  | 0, _ => none
  | fuel + 1, data =>
    if data.length < 10 then none
    else
      match decodeFunctionData oracle abi data with
      | .error _ => none
      | .ok (functionName, resultArgs) =>
        let args := catalogArgs abi functionName resultArgs
        some (DecodedCall.mk (jsTake data 10) (some functionName) none args
          (some (detectNestedCallsAux (tryDecodeNested oracle abi labels fuel) args)))

/-- `detectNestedCalls` (src/decode.ts lines 146-182): scan the argument
list in order, collecting the successfully decoded candidates. -/
def detectNestedCalls (oracle : DecodeOracle) (abi : List AbiItem) (labels : Labels)
    (fuel : Nat) (args : List Arg) : List DecodedCall :=
  detectNestedCallsAux (tryDecodeNested oracle abi labels fuel) args

/-! ## The top-level resolver (src/decode.ts lines 184-260) -/

/-- The `pluginContext` built at the top of `decodeCalldata`
(src/decode.ts lines 191-196). -/
def mkPluginContext (data : String) (labels : Labels)
    (context : Option PartialDecodeContext) : DecodeContext :=
  { labels := labels
    selector := jsLower (jsTake data 10)
    address := context.bind (fun c => c.address)
    chainId := context.bind (fun c => c.chainId) }

/-- `decodeCalldata` (src/decode.ts lines 184-260): plugins first, then the
catalog (with nested detection), then the selector cache fallback.  The
result carries the updated selector-cache state and the remote queries
issued.  A `match` exception from a plugin propagates (rejected
promise). -/
def decodeCalldata (oracle : DecodeOracle) (abi : List AbiItem) (decoders : List Decoder)
    (env : RemoteEnv) (st : SelectorState) (fuel : Nat)
    (data : String) (labels : Labels) (context : Option PartialDecodeContext) :
    Except Unit (DecodedCall × SelectorState × List (Remote × String)) :=
  let selector := jsLower (jsTake data 10)
  let pluginContext := mkPluginContext data labels context
  match decodeWithPlugins decoders data pluginContext with
  | .error e => .error e
  | .ok (some pluginResult) =>
    .ok (DecodedCall.mk selector (some pluginResult.name) none pluginResult.params
      (pluginResult.nested.map (fun ns =>
        ns.map (fun n => DecodedCall.mk "" (some n.name) none n.params none))), st, [])
  | .ok none =>
    match decodeFunctionData oracle abi data with
    | .ok (functionName, resultArgs) =>
      let args := catalogArgs abi functionName resultArgs
      .ok (DecodedCall.mk selector (some functionName) none args
        (some (detectNestedCalls oracle abi labels fuel args)), st, [])
    | .error _ =>
      let r := lookupSelector env st selector
      .ok (DecodedCall.mk selector none r.1.getLast?
        [⟨"data", "bytes", Value.vStr (jsDrop data 10)⟩] none, r.2.1, r.2.2)

/-- Outcome of a `decodeCommand` invocation. -/
inductive CommandResult where
  | usage
  | invalidCalldata
  | decoded (call : DecodedCall)
  | raised

/-- `decodeCommand` for a direct-calldata invocation (src/decode.ts
lines 262-336), from the point where argument parsing has produced the
optional payload; the `--tx` fetch path is network I/O and outside this
model.  No payload prints usage; a payload shorter than 10 characters is
rejected with an error and `process.exit(1)` (line 327-330) without
invoking `decodeCalldata`; otherwise the payload is resolved. -/
def decodeCommandModel (oracle : DecodeOracle) (abi : List AbiItem) (decoders : List Decoder)
    (env : RemoteEnv) (st : SelectorState) (fuel : Nat)
    (data : Option String) (labels : Labels) (chainId : Int) : CommandResult :=
  match data with
  | none => .usage
  | some d =>
    if d.length < 10 then .invalidCalldata
    else
      match decodeCalldata oracle abi decoders env st fuel d labels (some ⟨none, some chainId⟩) with
      | .ok (dc, _, _) => .decoded dc
      | .error _ => .raised

/-! ## Nested-candidate characterisation -/

/-- The candidate test of the spec's scan rule, as the source implements
it: a string value starting with `0x` and strictly longer than a bare
10-character selector, yielding the string. -/
def candString : Value → List String
  | .vStr s => if jsStartsWith s "0x" && s.length > 10 then [s] else []
  | _ => []

/-- Follows the spec's words (§4.4 scan rule): the candidate byte strings
of an argument list, in scan order, from the three positions — (a) a
top-level argument value, (b) each element of an array-valued argument,
(c) each value inside an object-like element of such an array (for the
source's `Object.values`, an element that is itself an array contributes
its own elements at this position). -/
def nestedCandidates (args : List Arg) : List String :=
  args.flatMap (fun arg =>
    candString arg.value ++
      (match arg.value with
       | .vList items => items.flatMap (fun item =>
           candString item ++
             (if isObjectLike item then (objectValues item).flatMap candString else []))
       | _ => []))


/-! ## Concrete instances used by witnesses and counterexamples -/

/-- ABI-codec oracle that decodes no value of any type: with it, only
descriptors with an empty parameter list decode structurally. -/
def oracle0 : DecodeOracle := fun _ _ => none

/-- Remote environment in which both signature databases return nothing. -/
def env0 : RemoteEnv := ⟨fun _ => [], fun _ => []⟩

/-- Fresh selector-cache state: nothing loaded, nothing persisted. -/
def st0 : SelectorState := ⟨none, false, none⟩

/-- Selector-cache state whose in-memory cache already maps `0x11223344`
to the two candidate signatures of the spec's remote-fallback example. -/
def stFoo : SelectorState := ⟨some [("0x11223344", ["foo()", "bar()"])], false, none⟩

/-- Remote environment in which 4byte.directory answers with one
signature and openchain with none. -/
def envA : RemoteEnv := ⟨fun _ => ["sig()"], fun _ => []⟩

/-- Oracle decoding a `bytes` parameter to a fixed upper-case hex blob and
nothing else. -/
def oracle1 : DecodeOracle :=
  fun t s => if t == "bytes" then some (.vStr "0xAABBCCDD11", s) else none

/-- One-function catalog whose single `bytes` parameter always decodes
(under `oracle1`) to a call-like upper-case blob. -/
def abi2 : List AbiItem := [⟨"function", "g", some [⟨"b", "bytes"⟩]⟩]

/-- Oracle decoding a `uint256` parameter to the integer 7 and nothing
else. -/
def oracle2 : DecodeOracle :=
  fun t s => if t == "uint256" then some (.vInt 7, s) else none

/-- One-function catalog with a single `uint256` parameter. -/
def abi3 : List AbiItem := [⟨"function", "h", some [⟨"x", "uint256"⟩]⟩]

/-- A catalog with two same-named overloads: the first takes a `uint256`,
the second takes nothing.  Under `oracle0` only the second decodes, but
the argument rebuild looks the item up by name and finds the first. -/
def catalogOv : List AbiItem :=
  [ ⟨"function", "foo", some [⟨"x", "uint256"⟩]⟩,
    ⟨"function", "foo", some []⟩ ]

/-- Priority-10 decoder that matches everything and returns a fixed
result. -/
def highDecoder : Decoder :=
  ⟨"hi", some 10, fun _ _ => .ok true,
    fun _ _ => .ok (some (DecodedData.mk "HI" none [] none))⟩

/-- Priority-5 decoder that matches everything and returns a fixed
result. -/
def lowDecoder : Decoder :=
  ⟨"lo", some 5, fun _ _ => .ok true,
    fun _ _ => .ok (some (DecodedData.mk "LO" none [] none))⟩

/-- Decoder whose `match` predicate throws. -/
def throwingMatchDecoder : Decoder :=
  ⟨"bad", none, fun _ _ => .error (), fun _ _ => .ok none⟩

/-- Decoder that matches everything and whose `decode` throws. -/
def throwingDecodeDecoder : Decoder :=
  ⟨"boom", none, fun _ _ => .ok true, fun _ _ => .error ()⟩

/-- A plain decode context over an empty label map. -/
def ctx0 : DecodeContext := ⟨[], "0xdeadbeef", none, none⟩

/-! ## Registry sorting lemmas -/

theorem insertDesc_perm (d : Decoder) (l : List Decoder) :
    List.Perm (insertDesc d l) (d :: l) := by
  induction l with
  | nil => simp [insertDesc]
  | cons e rest ih =>
    simp only [insertDesc]
    by_cases h : prio e > prio d
    · simp only [if_pos h]
      exact ((ih.cons e).trans (List.Perm.swap d e rest))
    · simp only [if_neg h]
      exact List.Perm.refl _

theorem mem_insertDesc {b d : Decoder} {l : List Decoder} (h : b ∈ insertDesc d l) :
    b = d ∨ b ∈ l := by
  have := (insertDesc_perm d l).mem_iff.mp h
  simpa using this

theorem insertDesc_pairwise {d : Decoder} {l : List Decoder}
    (h : l.Pairwise (fun a b => prio b ≤ prio a)) :
    (insertDesc d l).Pairwise (fun a b => prio b ≤ prio a) := by
  induction l with
  | nil => simp [insertDesc]
  | cons e rest ih =>
    rcases List.pairwise_cons.mp h with ⟨h1, h2⟩
    simp only [insertDesc]
    by_cases hgt : prio e > prio d
    · simp only [if_pos hgt]
      refine List.pairwise_cons.mpr ⟨?_, ih h2⟩
      intro b hb
      rcases mem_insertDesc hb with rfl | hb'
      · exact le_of_lt hgt
      · exact h1 b hb'
    · simp only [if_neg hgt]
      refine List.pairwise_cons.mpr ⟨?_, h⟩
      intro b hb
      rcases List.mem_cons.mp hb with rfl | hb'
      · exact le_of_not_lt hgt
      · exact le_trans (h1 b hb') (le_of_not_lt hgt)

theorem sortDecoders_perm (l : List Decoder) : List.Perm (sortDecoders l) l := by
  induction l with
  | nil => simp [sortDecoders]
  | cons d rest ih =>
    exact (insertDesc_perm d (sortDecoders rest)).trans (ih.cons d)

theorem sortDecoders_pairwise (l : List Decoder) :
    (sortDecoders l).Pairwise (fun a b => prio b ≤ prio a) := by
  induction l with
  | nil => simp [sortDecoders]
  | cons d rest ih => exact insertDesc_pairwise ih

theorem insertDesc_filter (d : Decoder) (p : Int) (l : List Decoder) :
    (insertDesc d l).filter (fun e => prio e == p) =
      if prio d == p then d :: l.filter (fun e => prio e == p)
      else l.filter (fun e => prio e == p) := by
  induction l with
  | nil =>
    by_cases hdp : prio d = p <;> simp [insertDesc, List.filter_cons, hdp]
  | cons e rest ih =>
    simp only [insertDesc]
    by_cases hgt : prio e > prio d
    · simp only [if_pos hgt]
      by_cases hdp : prio d = p
      · have hep : ¬ (prio e = p) := by omega
        simp [List.filter_cons, ih, hdp, hep]
      · simp [List.filter_cons, ih, hdp]
    · simp only [if_neg hgt]
      by_cases hdp : prio d = p
      · simp [List.filter_cons, hdp]
      · simp [List.filter_cons, hdp]

theorem sortDecoders_filter (p : Int) (l : List Decoder) :
    (sortDecoders l).filter (fun e => prio e == p) = l.filter (fun e => prio e == p) := by
  induction l with
  | nil => rfl
  | cons d rest ih =>
    rw [sortDecoders, insertDesc_filter, ih]
    by_cases hdp : prio d = p <;> simp [List.filter_cons, hdp]

theorem filterMap_flatMap_eq {α β γ : Type} (l : List α) (g : α → List β) (f : β → Option γ) :
    (l.flatMap g).filterMap f = l.flatMap (fun a => (g a).filterMap f) := by
  induction l with
  | nil => rfl
  | cons a rest ih => simp [List.flatMap_cons, List.filterMap_append, ih]

theorem flatMap_congr_fun {α β : Type} (l : List α) (f g : α → List β)
    (h : ∀ a, f a = g a) : l.flatMap f = l.flatMap g := by
  induction l with
  | nil => rfl
  | cons a rest ih => simp only [List.flatMap_cons, h, ih]

theorem tryCandidate_eq (recurse : String → Option DecodedCall) (v : Value) :
    tryCandidate recurse v = (candString v).filterMap recurse := by
  cases v <;> try rfl
  rename_i s
  rw [tryCandidate, candString]
  by_cases h : (jsStartsWith s "0x" && decide (s.length > 10)) = true
  · rw [if_pos h, if_pos h]
    cases htd : recurse s <;> simp [htd]
  · rw [if_neg h, if_neg h]
    rfl

theorem scanObjectValues_eq (recurse : String → Option DecodedCall) (vs : List Value) :
    scanObjectValues recurse vs = (vs.flatMap candString).filterMap recurse := by
  rw [scanObjectValues, filterMap_flatMap_eq]
  exact flatMap_congr_fun _ _ _ (fun v => tryCandidate_eq recurse v)

theorem scanItems_eq (recurse : String → Option DecodedCall) (items : List Value) :
    scanItems recurse items =
      (items.flatMap (fun item =>
        candString item ++
          (if isObjectLike item then (objectValues item).flatMap candString else []))).filterMap
        recurse := by
  rw [scanItems, filterMap_flatMap_eq]
  refine flatMap_congr_fun _ _ _ ?_
  intro item
  rw [List.filterMap_append, tryCandidate_eq]
  by_cases h : isObjectLike item <;> simp [h, scanObjectValues_eq]

theorem scanArgValue_eq (recurse : String → Option DecodedCall) (v : Value) :
    scanArgValue recurse v =
      (candString v ++
        (match v with
         | .vList items => items.flatMap (fun item =>
             candString item ++
               (if isObjectLike item then (objectValues item).flatMap candString else []))
         | _ => [])).filterMap recurse := by
  cases v <;>
    simp only [scanArgValue, List.filterMap_append, tryCandidate_eq, scanItems_eq,
      List.append_nil, List.filterMap_nil]

theorem detectNestedCallsAux_eq (recurse : String → Option DecodedCall) (args : List Arg) :
    detectNestedCallsAux recurse args = (nestedCandidates args).filterMap recurse := by
  rw [detectNestedCallsAux, nestedCandidates, filterMap_flatMap_eq]
  refine flatMap_congr_fun _ _ _ ?_
  intro arg
  rw [scanArgValue_eq]

/-! ## Argument-construction helpers -/

theorem namedArgs_map_name (resultArgs : List Value) (inputs : List Param) (i : Nat) :
    (namedArgs resultArgs inputs i).map Arg.name = inputs.map Param.name := by
  induction inputs generalizing i with
  | nil => rfl
  | cons input rest ih => simp [namedArgs, ih]

theorem namedArgs_map_type (resultArgs : List Value) (inputs : List Param) (i : Nat) :
    (namedArgs resultArgs inputs i).map Arg.type = inputs.map Param.type := by
  induction inputs generalizing i with
  | nil => rfl
  | cons input rest ih => simp [namedArgs, ih]

theorem namedArgs_length (resultArgs : List Value) (inputs : List Param) (i : Nat) :
    (namedArgs resultArgs inputs i).length = inputs.length := by
  induction inputs generalizing i with
  | nil => rfl
  | cons input rest ih => simp [namedArgs, ih]

/-! ## Selector-cache lemmas -/

theorem loadCache_cache (st : SelectorState) :
    ((loadCache st).2).cache = some ((loadCache st).1) := by
  rcases st with ⟨c?, m, f?⟩
  cases c? <;> cases f? <;> rfl

theorem loadCache_of_cache_some {st : SelectorState} {c : SelectorCache}
    (h : st.cache = some c) : loadCache st = (c, st) := by
  rcases st with ⟨c?, m, f?⟩
  cases c? with
  | none => simp at h
  | some c' =>
    cases h
    rfl

theorem recordSet_lookup_self (c : SelectorCache) (k : String) (v : List String) :
    (recordSet c k v).lookup k = some v := by
  rw [recordSet]
  by_cases h : (c.lookup k).isSome
  · rw [if_pos h]
    induction c with
    | nil => simp [List.lookup] at h
    | cons p rest ih =>
      rcases p with ⟨a, b⟩
      by_cases hk : k = a
      · subst hk
        simp [List.lookup]
      · have hk1 : (a == k) = false := by
          simp [Ne.symm hk]
        have hk2 : (k == a) = false := by
          simp [hk]
        have h' : (List.lookup k rest).isSome := by
          simpa [List.lookup, hk2] using h
        simpa [List.lookup, hk1, hk2, cond] using ih h'
  · rw [if_neg h]
    induction c with
    | nil => simp [List.lookup]
    | cons p rest ih =>
      rcases p with ⟨a, b⟩
      by_cases hk : k = a
      · exfalso
        apply h
        simp [List.lookup, hk]
      · have hk2 : (k == a) = false := by
          simp [hk]
        have h' : ¬ (List.lookup k rest).isSome := by
          simpa [List.lookup, hk2] using h
        simpa [List.lookup, hk2] using ih h'

theorem addToCache_of_cache_some {st : SelectorState} {c : SelectorCache}
    (h : st.cache = some c) (selector : String) (signatures : List String) :
    addToCache st selector signatures =
      { st with cache := some (recordSet c (jsLower selector) signatures),
                cacheModified := true } := by
  rw [addToCache, loadCache_of_cache_some h]

/-! ## Claim theorems -/

theorem toNat_ofNat_of_valid {n : Nat} (h : n.isValidChar) : (Char.ofNat n).toNat = n := by
  rw [Char.ofNat, dif_pos h]
  simp [Char.ofNatAux, Char.toNat, UInt32.toNat]

theorem char_toLower_idem (c : Char) : c.toLower.toLower = c.toLower := by
  by_cases h : (65 ≤ c.toNat ∧ c.toNat ≤ 90)
  · have hv : (c.toNat + 32).isValidChar := Or.inl (by omega)
    have ht : (Char.ofNat (c.toNat + 32)).toNat = c.toNat + 32 := toNat_ofNat_of_valid hv
    have h1 : c.toLower = Char.ofNat (c.toNat + 32) := by
      rw [Char.toLower, if_pos h]
    rw [h1, Char.toLower, ht, if_neg (by omega)]
  · have h1 : c.toLower = c := by
      rw [Char.toLower, if_neg h]
    rw [h1]
    exact h1

theorem jsLower_idem (s : String) : jsLower (jsLower s) = jsLower s := by
  have hl : ∀ l : List Char, (l.map Char.toLower).map Char.toLower = l.map Char.toLower := by
    intro l
    induction l with
    | nil => rfl
    | cons c rest ih => simp [char_toLower_idem, ih]
  simp only [jsLower, hl]

/-- Claim C10: for every input string that is not exactly 10 characters
long or does not start with `0x` after lower-casing, `lookupSelector`
returns the empty list immediately, issues no remote query, and returns
the cache state unchanged. -/
theorem c10_invalid_selector_noop (env : RemoteEnv) (st : SelectorState) (selector : String)
    (h : ¬((jsLower selector).length = 10 ∧ jsStartsWith (jsLower selector) "0x" = true)) :
    lookupSelector env st selector = ([], st, []) := by
  have hcond : ((jsLower selector).length != 10 || !jsStartsWith (jsLower selector) "0x") = true := by
    by_cases hl : (jsLower selector).length = 10
    · by_cases hs : jsStartsWith (jsLower selector) "0x" = true
      · exact absurd ⟨hl, hs⟩ h
      · simp [hs]
    · simp [hl]
  simp only [lookupSelector, hcond, if_true]

/-- Witness for C10 at the concrete input of the repository's own test
(`tests` expect `lookupSelector('invalid')` to be `[]`). -/
theorem c10_invalid_selector_noop_witness :
    lookupSelector env0 st0 "invalid" = ([], st0, []) :=
  c10_invalid_selector_noop env0 st0 "invalid" (by decide)

theorem lookupSelector_of_valid (env : RemoteEnv) (st : SelectorState) (sel : String)
    (hlen : (jsLower sel).length = 10) (hpre : jsStartsWith (jsLower sel) "0x" = true) :
    lookupSelector env st sel =
      (match ((loadCache st).1).lookup (jsLower sel) with
       | some cached => (cached, (loadCache st).2, [])
       | none =>
         let sigs4 := env.fetchFrom4byte (jsLower sel)
         let pq :=
           if sigs4.length == 0 then
             (env.fetchFromOpenchain (jsLower sel),
              [(Remote.fourbyte, jsLower sel), (Remote.openchain, jsLower sel)])
           else
             (sigs4, [(Remote.fourbyte, jsLower sel)])
         (pq.1, saveCache (addToCache (loadCache st).2 (jsLower sel) pq.1), pq.2)) := by
  have hcond : ((jsLower sel).length != 10 || !jsStartsWith (jsLower sel) "0x") = false := by
    simp [hlen, hpre]
  have hload : loadCache st = ((loadCache st).1, (loadCache st).2) := rfl
  rw [lookupSelector]
  simp only [hcond, Bool.false_eq_true, if_false]

theorem lookupSelector_hit (env : RemoteEnv) (st : SelectorState) (sel : String)
    (hlen : (jsLower sel).length = 10) (hpre : jsStartsWith (jsLower sel) "0x" = true)
    (sigs : List String) (hc : ((loadCache st).1).lookup (jsLower sel) = some sigs) :
    lookupSelector env st sel = (sigs, (loadCache st).2, []) := by
  rw [lookupSelector_of_valid env st sel hlen hpre, hc]

theorem lookupSelector_miss_fourbyte (env : RemoteEnv) (st : SelectorState) (sel : String)
    (hlen : (jsLower sel).length = 10) (hpre : jsStartsWith (jsLower sel) "0x" = true)
    (hc : ((loadCache st).1).lookup (jsLower sel) = none)
    (h4 : env.fetchFrom4byte (jsLower sel) ≠ []) :
    lookupSelector env st sel =
      (env.fetchFrom4byte (jsLower sel),
       saveCache (addToCache (loadCache st).2 (jsLower sel) (env.fetchFrom4byte (jsLower sel))),
       [(Remote.fourbyte, jsLower sel)]) := by
  have h4' : ((env.fetchFrom4byte (jsLower sel)).length == 0) = false := by
    simpa [List.length_eq_zero] using h4
  rw [lookupSelector_of_valid env st sel hlen hpre, hc]
  simp only [h4', Bool.false_eq_true, if_false]

theorem lookupSelector_miss_openchain (env : RemoteEnv) (st : SelectorState) (sel : String)
    (hlen : (jsLower sel).length = 10) (hpre : jsStartsWith (jsLower sel) "0x" = true)
    (hc : ((loadCache st).1).lookup (jsLower sel) = none)
    (h4 : env.fetchFrom4byte (jsLower sel) = []) :
    lookupSelector env st sel =
      (env.fetchFromOpenchain (jsLower sel),
       saveCache (addToCache (loadCache st).2 (jsLower sel)
         (env.fetchFromOpenchain (jsLower sel))),
       [(Remote.fourbyte, jsLower sel), (Remote.openchain, jsLower sel)]) := by
  have h4' : ((env.fetchFrom4byte (jsLower sel)).length == 0) = true := by
    simp [h4]
  rw [lookupSelector_of_valid env st sel hlen hpre, hc]
  simp only [h4', if_true]

/-- The state after the miss path has written and flushed: the in-memory
cache and the file both hold the updated record. -/
theorem writeState_eq (st : SelectorState) (sel : String) (sigs : List String) :
    saveCache (addToCache (loadCache st).2 (jsLower sel) sigs) =
      { (loadCache st).2 with
        cache := some (recordSet (loadCache st).1 (jsLower sel) sigs),
        cacheModified := false,
        file := some (recordSet (loadCache st).1 (jsLower sel) sigs) } := by
  rw [addToCache_of_cache_some (loadCache_cache st), jsLower_idem, saveCache]
  rfl

/-- After the miss path has written and flushed, looking the selector up
again hits the in-memory cache. -/
theorem lookupSelector_after_write (env : RemoteEnv) (st : SelectorState) (sel : String)
    (hlen : (jsLower sel).length = 10) (hpre : jsStartsWith (jsLower sel) "0x" = true)
    (written : List String) :
    lookupSelector env (saveCache (addToCache (loadCache st).2 (jsLower sel) written)) sel =
      (written, saveCache (addToCache (loadCache st).2 (jsLower sel) written), []) := by
  rw [writeState_eq st sel written]
  exact lookupSelector_hit env _ sel hlen hpre written (recordSet_lookup_self _ _ _)

/-- Claim C8: `lookupSelector` returns immediately with no remote query on
a cache hit (including a previously cached empty result); on a miss it
queries 4byte.directory first and openchain second, accepting the first
non-empty response; and it writes every outcome back into the cache, so
that a second lookup of the same selector hits the cache and issues no
remote query. -/
theorem c8_lookupSelector_contract (env : RemoteEnv) (st : SelectorState) (sel : String)
    (hlen : (jsLower sel).length = 10) (hpre : jsStartsWith (jsLower sel) "0x" = true) :
    (∀ sigs, ((loadCache st).1).lookup (jsLower sel) = some sigs →
        lookupSelector env st sel = (sigs, (loadCache st).2, []))
    ∧ (((loadCache st).1).lookup (jsLower sel) = none →
        env.fetchFrom4byte (jsLower sel) ≠ [] →
          lookupSelector env st sel =
            (env.fetchFrom4byte (jsLower sel),
             saveCache (addToCache (loadCache st).2 (jsLower sel)
               (env.fetchFrom4byte (jsLower sel))),
             [(Remote.fourbyte, jsLower sel)]))
    ∧ (((loadCache st).1).lookup (jsLower sel) = none →
        env.fetchFrom4byte (jsLower sel) = [] →
          lookupSelector env st sel =
            (env.fetchFromOpenchain (jsLower sel),
             saveCache (addToCache (loadCache st).2 (jsLower sel)
               (env.fetchFromOpenchain (jsLower sel))),
             [(Remote.fourbyte, jsLower sel), (Remote.openchain, jsLower sel)]))
    ∧ (∀ sigs st2 qs, lookupSelector env st sel = (sigs, st2, qs) →
        (st2.cache.getD []).lookup (jsLower sel) = some sigs
          ∧ lookupSelector env st2 sel = (sigs, st2, [])) := by
  refine ⟨lookupSelector_hit env st sel hlen hpre,
    lookupSelector_miss_fourbyte env st sel hlen hpre,
    lookupSelector_miss_openchain env st sel hlen hpre, ?_⟩
  intro sigs st2 qs hlook
  cases hc : ((loadCache st).1).lookup (jsLower sel) with
  | some cached =>
    rw [lookupSelector_hit env st sel hlen hpre cached hc] at hlook
    injection hlook with h1 h23
    injection h23 with h2 h3
    have hl2 : loadCache ((loadCache st).2) = ((loadCache st).1, (loadCache st).2) :=
      loadCache_of_cache_some (loadCache_cache st)
    constructor
    · rw [← h2, loadCache_cache st, ← h1]
      exact hc
    · have hcc : ((loadCache ((loadCache st).2)).1).lookup (jsLower sel) = some cached := by
        rw [hl2]
        exact hc
      rw [← h2, ← h1, lookupSelector_hit env ((loadCache st).2) sel hlen hpre cached hcc, hl2]
  | none =>
    by_cases h4 : env.fetchFrom4byte (jsLower sel) = []
    · rw [lookupSelector_miss_openchain env st sel hlen hpre hc h4] at hlook
      injection hlook with h1 h23
      injection h23 with h2 h3
      constructor
      · rw [← h2, writeState_eq st sel _, ← h1]
        exact recordSet_lookup_self _ _ _
      · rw [← h2, ← h1]
        exact lookupSelector_after_write env st sel hlen hpre _
    · rw [lookupSelector_miss_fourbyte env st sel hlen hpre hc h4] at hlook
      injection hlook with h1 h23
      injection h23 with h2 h3
      constructor
      · rw [← h2, writeState_eq st sel _, ← h1]
        exact recordSet_lookup_self _ _ _
      · rw [← h2, ← h1]
        exact lookupSelector_after_write env st sel hlen hpre _

/-- Witness for C8 at a concrete run: a fresh cache, 4byte.directory
answering; the first lookup queries only 4byte.directory, the second
lookup hits the cache and queries nothing. -/
theorem c8_lookupSelector_contract_witness :
    lookupSelector ⟨fun _ => ["a()"], fun _ => ["b()"]⟩ st0 "0xAABBCCDD" =
      (["a()"],
       ⟨some [("0xaabbccdd", ["a()"])], false, some [("0xaabbccdd", ["a()"])]⟩,
       [(Remote.fourbyte, "0xaabbccdd")])
    ∧ lookupSelector ⟨fun _ => ["a()"], fun _ => ["b()"]⟩
        ⟨some [("0xaabbccdd", ["a()"])], false, some [("0xaabbccdd", ["a()"])]⟩ "0xAABBCCDD" =
      (["a()"],
       ⟨some [("0xaabbccdd", ["a()"])], false, some [("0xaabbccdd", ["a()"])]⟩, []) := by
  have h := c8_lookupSelector_contract ⟨fun _ => ["a()"], fun _ => ["b()"]⟩ st0 "0xAABBCCDD"
    (by decide) (by decide)
  refine ⟨h.2.1 (by decide) (by decide), ?_⟩
  have hfirst := h.2.1 (by decide) (by decide)
  have hsec := h.2.2.2 _ _ _ hfirst
  exact hsec.2

/-- Claim C4: after loading, the registry is stable-sorted by descending
priority (equal priorities keep discovery order, project before user), and
dispatch picks the first matching decoder, so a payload matched by two
plugins of priorities 10 and 5 always gets the priority-10 plugin's decode
output. -/
theorem c4_registry_priority_order (proj user : List Decoder) (d1 d2 : Decoder)
    (data : String) (context : DecodeContext) (res : Option DecodedData)
    (hp1 : d1.priority = some 10) (hp2 : d2.priority = some 5)
    (hcat : proj ++ user = [d1, d2] ∨ proj ++ user = [d2, d1])
    (hm1 : d1.matchFn data context = .ok true)
    (hd1 : d1.decode data context = .ok res) :
    (loadAllDecoders proj user).Pairwise (fun a b => prio b ≤ prio a)
    ∧ (∀ p : Int, (loadAllDecoders proj user).filter (fun e => prio e == p) =
        (proj ++ user).filter (fun e => prio e == p))
    ∧ List.Perm (loadAllDecoders proj user) (proj ++ user)
    ∧ decodeWithPlugins (loadAllDecoders proj user) data context = .ok res := by
  refine ⟨sortDecoders_pairwise _, fun p => sortDecoders_filter p _, sortDecoders_perm _, ?_⟩
  have hpr1 : prio d1 = 10 := by simp [prio, hp1]
  have hpr2 : prio d2 = 5 := by simp [prio, hp2]
  have hsort : loadAllDecoders proj user = [d1, d2] := by
    rw [loadAllDecoders]
    rcases hcat with h | h <;> rw [h] <;>
      simp [sortDecoders, insertDesc, hpr1, hpr2]
  rw [hsort, decodeWithPlugins]
  simp only [findDecoder, hm1, hd1]

/-- Witness for C4: two always-matching decoders of priorities 10 and 5,
supplied in the lower-priority-first order, still dispatch to the
priority-10 decoder. -/
theorem c4_registry_priority_order_witness :
    decodeWithPlugins (loadAllDecoders [lowDecoder] [highDecoder]) "0xdeadbeef" ctx0 =
      .ok (some (DecodedData.mk "HI" none [] none)) :=
  (c4_registry_priority_order [lowDecoder] [highDecoder] highDecoder lowDecoder
    "0xdeadbeef" ctx0 (some (DecodedData.mk "HI" none [] none))
    rfl rfl (Or.inr rfl) rfl rfl).2.2.2

/-- Counterexample to C5 as stated: a decoder whose `match` predicate
throws makes `decodeWithPlugins` itself throw — the registry boundary only
catches exceptions from `decode`, not from `match`. -/
theorem c5_counterexample :
    decodeWithPlugins [throwingMatchDecoder] "0xdeadbeef" ctx0 = .error () := rfl

/-- Claim C5 (amended): `decodeWithPlugins` invokes the decode function of
the first matching decoder and converts an exception thrown by that
`decode` into "no result"; an exception thrown by a `match` predicate,
however, propagates out of `decodeWithPlugins` unchanged. -/
theorem c5_decode_exceptions_caught (decoders : List Decoder) (data : String)
    (context : DecodeContext) :
    (findDecoder decoders data context = .ok none →
      decodeWithPlugins decoders data context = .ok none)
    ∧ (∀ d, findDecoder decoders data context = .ok (some d) →
        decodeWithPlugins decoders data context =
          .ok (((d.decode data context).toOption).getD none))
    ∧ (∀ e, findDecoder decoders data context = .error e →
        decodeWithPlugins decoders data context = .error e) := by
  refine ⟨?_, ?_, ?_⟩
  · intro h
    rw [decodeWithPlugins, h]
  · intro d h
    rw [decodeWithPlugins, h]
    cases hd : d.decode data context with
    | ok r => simp [hd, Except.toOption]
    | error e => simp [hd, Except.toOption]
  · intro e h
    rw [decodeWithPlugins, h]

/-- Witness for C5 (amended): a decoder whose `decode` throws yields
"no result" rather than an exception. -/
theorem c5_decode_exceptions_caught_witness :
    decodeWithPlugins [throwingDecodeDecoder] "0xdeadbeef" ctx0 = .ok none :=
  (c5_decode_exceptions_caught [throwingDecodeDecoder] "0xdeadbeef" ctx0).2.1
    throwingDecodeDecoder rfl

/-- If the plugin stage returns without throwing, `decodeCalldata`
succeeds whatever the payload — there is no length check anywhere in it. -/
theorem decodeCalldata_ok_of_plugins_ok (oracle : DecodeOracle) (abi : List AbiItem)
    (decoders : List Decoder) (env : RemoteEnv) (st : SelectorState) (fuel : Nat)
    (data : String) (labels : Labels) (context : Option PartialDecodeContext)
    (r : Option DecodedData)
    (hplug : decodeWithPlugins decoders data (mkPluginContext data labels context) = .ok r) :
    ∃ dc st2 qs, decodeCalldata oracle abi decoders env st fuel data labels context =
      .ok (dc, st2, qs) := by
  simp only [decodeCalldata]
  rw [hplug]
  cases r with
  | some pr => exact ⟨_, _, _, rfl⟩
  | none =>
    cases hcat : decodeFunctionData oracle abi data with
    | ok v => exact ⟨_, _, _, rfl⟩
    | error e => exact ⟨_, _, _, rfl⟩

/-- Counterexample to C1 as stated: on the 2-byte payload `0x12`,
`decodeCalldata` does not fail with any error — it runs its normal stages
and succeeds with an opaque `DecodedCall`. -/
theorem c1_counterexample :
    ("0x12" : String).length < 10
    ∧ decodeCalldata oracle0 allAbisBase [] env0 st0 0 "0x12" [] none =
        .ok (DecodedCall.mk "0x12" none none [⟨"data", "bytes", Value.vStr ""⟩] none, st0, []) :=
  ⟨by decide, rfl⟩

/-- Claim C1 (amended): the length check lives in the CLI command, not in
the resolver: `decodeCommand` rejects a payload shorter than 10 characters
with an invalid-calldata error before ever invoking `decodeCalldata`,
while `decodeCalldata` itself performs no length validation and returns a
`DecodedCall` even for a short payload whenever its plugin stage does not
throw. -/
theorem c1_length_check_in_command (oracle : DecodeOracle) (abi : List AbiItem)
    (decoders : List Decoder) (env : RemoteEnv) (st : SelectorState) (fuel : Nat)
    (data : String) (labels : Labels) (chainId : Int)
    (hshort : data.length < 10) :
    decodeCommandModel oracle abi decoders env st fuel (some data) labels chainId =
      .invalidCalldata
    ∧ (∀ r context,
        decodeWithPlugins decoders data (mkPluginContext data labels context) = .ok r →
        ∃ dc st2 qs, decodeCalldata oracle abi decoders env st fuel data labels context =
          .ok (dc, st2, qs)) := by
  constructor
  · rw [decodeCommandModel]
    simp [hshort]
  · intro r context hplug
    exact decodeCalldata_ok_of_plugins_ok oracle abi decoders env st fuel data labels
      context r hplug

/-- Witness for C1 (amended) at the payload `0x12`. -/
theorem c1_length_check_in_command_witness :
    decodeCommandModel oracle0 allAbisBase [] env0 st0 0 (some "0x12") [] 1 =
      CommandResult.invalidCalldata :=
  (c1_length_check_in_command oracle0 allAbisBase [] env0 st0 0 "0x12" [] 1 (by decide)).1

/-- Counterexample to C2 as stated: for the 4-byte payload `0xa9059cbb`
with no matching decoder, the resolver succeeds with selector and no name,
but the argument list is not empty — it holds one opaque `data`/`bytes`
argument. -/
theorem c2_counterexample :
    decodeCalldata oracle0 allAbisBase [] env0 st0 0 "0xa9059cbb" [] none =
      .ok (DecodedCall.mk "0xa9059cbb" none none [⟨"data", "bytes", Value.vStr ""⟩] none,
        ⟨some [("0xa9059cbb", [])], false, some [("0xa9059cbb", [])]⟩,
        [(Remote.fourbyte, "0xa9059cbb"), (Remote.openchain, "0xa9059cbb")])
    ∧ (DecodedCall.mk "0xa9059cbb" none none [⟨"data", "bytes", Value.vStr ""⟩] none).args ≠ [] :=
  ⟨rfl, by simp [DecodedCall.args]⟩

/-- Claim C2 (amended): for a payload exactly 4 bytes (10 characters) long
that no decoder matches, resolution against the built-in catalog (which
contains no function descriptors) succeeds and returns a `DecodedCall`
with the lower-cased selector, no function name, a single opaque
`data`/`bytes` argument holding the empty remainder — not an empty
argument list — and, as signature, the last cached or remote candidate
when one exists. -/
theorem c2_four_byte_payload (oracle : DecodeOracle) (decoders : List Decoder)
    (env : RemoteEnv) (st : SelectorState) (fuel : Nat) (data : String)
    (labels : Labels) (context : Option PartialDecodeContext)
    (hlen : data.length = 10)
    (hplug : decodeWithPlugins decoders data (mkPluginContext data labels context) = .ok none) :
    decodeCalldata oracle allAbisBase decoders env st fuel data labels context =
      .ok (DecodedCall.mk (jsLower data) none
            ((lookupSelector env st (jsLower data)).1.getLast?)
            [⟨"data", "bytes", Value.vStr ""⟩] none,
          (lookupSelector env st (jsLower data)).2.1,
          (lookupSelector env st (jsLower data)).2.2) := by
  obtain ⟨l⟩ := data
  have hl : l.length = 10 := hlen
  have htake : jsTake ⟨l⟩ 10 = ⟨l⟩ := congrArg String.mk (List.take_of_length_le (le_of_eq hl))
  have hdrop : jsDrop ⟨l⟩ 10 = "" := by
    rw [jsDrop]
    exact congrArg String.mk (List.drop_eq_nil_of_le (le_of_eq hl))
  have hcat : decodeFunctionData oracle allAbisBase ⟨l⟩ = .error () := rfl
  simp only [decodeCalldata]
  rw [hplug, hcat, htake, hdrop]

/-- Witness for C2 (amended): a 4-byte payload with an upper-case
selector, a remote database answering one signature. -/
theorem c2_four_byte_payload_witness :
    decodeCalldata oracle0 allAbisBase [] envA st0 0 "0xAABBCC11" [] none =
      .ok (DecodedCall.mk "0xaabbcc11" none (some "sig()")
            [⟨"data", "bytes", Value.vStr ""⟩] none,
          ⟨some [("0xaabbcc11", ["sig()"])], false, some [("0xaabbcc11", ["sig()"])]⟩,
          [(Remote.fourbyte, "0xaabbcc11")]) :=
  c2_four_byte_payload oracle0 [] envA st0 0 "0xAABBCC11" [] none (by decide) rfl

/-- Claim C3: when the plugin and catalog stages both fail and the
selector lookup yields a non-empty candidate list, the result's signature
is the last element of that list and its argument list is the single
opaque `data`/`bytes` argument holding the payload after the selector. -/
theorem c3_remote_fallback_last (oracle : DecodeOracle) (abi : List AbiItem)
    (decoders : List Decoder) (env : RemoteEnv) (st : SelectorState) (fuel : Nat)
    (data : String) (labels : Labels) (context : Option PartialDecodeContext)
    (sigs : List String) (st2 : SelectorState) (qs : List (Remote × String))
    (hplug : decodeWithPlugins decoders data (mkPluginContext data labels context) = .ok none)
    (hcat : decodeFunctionData oracle abi data = .error ())
    (hlook : lookupSelector env st (jsLower (jsTake data 10)) = (sigs, st2, qs))
    (hne : sigs ≠ []) :
    decodeCalldata oracle abi decoders env st fuel data labels context =
      .ok (DecodedCall.mk (jsLower (jsTake data 10)) none (some (sigs.getLast hne))
          [⟨"data", "bytes", Value.vStr (jsDrop data 10)⟩] none, st2, qs) := by
  simp only [decodeCalldata]
  rw [hplug, hcat, hlook, List.getLast?_eq_getLast sigs hne]

/-- Witness for C3: the spec's own example — a cache answering
`["foo()", "bar()"]` makes the resulting signature `"bar()"`. -/
theorem c3_remote_fallback_last_witness :
    decodeCalldata oracle0 allAbisBase [] env0 stFoo 0 "0x11223344" [] none =
      .ok (DecodedCall.mk "0x11223344" none (some "bar()")
          [⟨"data", "bytes", Value.vStr ""⟩] none, stFoo, []) :=
  c3_remote_fallback_last oracle0 allAbisBase [] env0 stFoo 0 "0x11223344" [] none
    ["foo()", "bar()"] stFoo [] rfl rfl rfl (by decide)

/-- Counterexample to C6 as stated: a resolution run whose nested call
carries the selector `0xAABBCCDD` — the first ten characters of its
payload without lower-casing, so not the lower-cased form the claim
requires. -/
theorem c6_counterexample :
    decodeCalldata oracle1 abi2 [] env0 st0 1 "0x09876543" [] none =
      .ok (DecodedCall.mk "0x09876543" (some "g") none
            [⟨"b", "bytes", Value.vStr "0xAABBCCDD11"⟩]
            (some [DecodedCall.mk "0xAABBCCDD" (some "g") none
              [⟨"b", "bytes", Value.vStr "0xAABBCCDD11"⟩] (some [])]),
          st0, [])
    ∧ "0xAABBCCDD" ≠ jsLower (jsTake "0xAABBCCDD11" 10) :=
  ⟨rfl, by decide⟩

/-- Claim C6 (amended): the top-level selector is always the lower-cased
first ten characters of the payload; a nested call produced by the
catalog-based nested detection carries the first ten characters of its own
payload without lower-casing; and nested calls mapped from a plugin result
carry an empty selector. -/
theorem c6_selector_fields (oracle : DecodeOracle) (abi : List AbiItem)
    (decoders : List Decoder) (env : RemoteEnv) (st : SelectorState) (fuel : Nat)
    (data : String) (labels : Labels) (context : Option PartialDecodeContext) :
    (∀ dc st2 qs,
        decodeCalldata oracle abi decoders env st fuel data labels context = .ok (dc, st2, qs) →
        dc.selector = jsLower (jsTake data 10))
    ∧ (∀ f d dc, tryDecodeNested oracle abi labels f d = some dc → dc.selector = jsTake d 10)
    ∧ (∀ pr dc st2 qs,
        decodeWithPlugins decoders data (mkPluginContext data labels context) = .ok (some pr) →
        decodeCalldata oracle abi decoders env st fuel data labels context = .ok (dc, st2, qs) →
        ∀ c ∈ dc.nested.getD [], c.selector = "") := by
  refine ⟨?_, ?_, ?_⟩
  · intro dc st2 qs h
    simp only [decodeCalldata] at h
    cases hplug : decodeWithPlugins decoders data (mkPluginContext data labels context) with
    | error e =>
      rw [hplug] at h
      exact Except.noConfusion h
    | ok o =>
      rw [hplug] at h
      cases o with
      | some pr =>
        injection h with h'
        injection h' with h1 h2
        rw [← h1]
        rfl
      | none =>
        cases hcat : decodeFunctionData oracle abi data with
        | ok v =>
          rw [hcat] at h
          injection h with h'
          injection h' with h1 h2
          rw [← h1]
          rfl
        | error e =>
          rw [hcat] at h
          injection h with h'
          injection h' with h1 h2
          rw [← h1]
          rfl
  · intro f d dc h
    cases f with
    | zero => simp [tryDecodeNested] at h
    | succ f =>
      rw [tryDecodeNested] at h
      by_cases hlen : d.length < 10
      · rw [if_pos hlen] at h
        exact Option.noConfusion h
      · rw [if_neg hlen] at h
        cases hcat : decodeFunctionData oracle abi d with
        | error e =>
          rw [hcat] at h
          exact Option.noConfusion h
        | ok v =>
          rw [hcat] at h
          injection h with h1
          rw [← h1]
          rfl
  · intro pr dc st2 qs hplug h
    simp only [decodeCalldata] at h
    rw [hplug] at h
    injection h with h'
    injection h' with h1 h2
    rw [← h1]
    cases hns : pr.nested with
    | none => simp [DecodedCall.nested, hns]
    | some ns =>
      simp only [DecodedCall.nested, hns, Option.map_some', Option.getD_some]
      intro c hc
      rw [List.mem_map] at hc
      obtain ⟨n, hn, rfl⟩ := hc
      rfl

/-- Witness for C6 (amended): the catalog-nested branch at a concrete
upper-case payload keeps the selector un-lowered. -/
theorem c6_selector_fields_witness :
    (DecodedCall.mk "0xAABBCCDD" (some "g") none
        [⟨"b", "bytes", Value.vStr "0xAABBCCDD11"⟩] (some [])).selector =
      jsTake "0xAABBCCDD11" 10 :=
  (c6_selector_fields oracle1 abi2 [] env0 st0 1 "0x09876543" [] none).2.1
    1 "0xAABBCCDD11" _ rfl

/-- Counterexample to C7 as stated: a candidate argument that the full
resolver resolves (to an opaque fallback `DecodedCall`) produces no nested
entry, because nested detection only consults the catalog, not the
plugin/cache/fallback stages of `decodeCalldata`. -/
theorem c7_counterexample :
    detectNestedCalls oracle0 allAbisBase [] 5 [⟨"a", "bytes", Value.vStr "0x0011223344"⟩] = []
    ∧ decodeCalldata oracle0 allAbisBase [] env0 st0 5 "0x0011223344" [] none =
        .ok (DecodedCall.mk "0x00112233" none none
              [⟨"data", "bytes", Value.vStr "44"⟩] none,
            ⟨some [("0x00112233", [])], false, some [("0x00112233", [])]⟩,
            [(Remote.fourbyte, "0x00112233"), (Remote.openchain, "0x00112233")]) :=
  ⟨rfl, rfl⟩

/-- Claim C7 (amended): nested detection collects, in scan order, exactly
the candidate strings of the three scan positions (`0x`-prefixed string
values longer than 10 characters at top level, as array elements, and
inside object-like array elements), and hands each to the catalog-only
`tryDecodeNested` — with the same catalog and label map but without the
plugin, cache, or opaque-fallback stages — keeping the successful
decodes. -/
theorem c7_detect_nested_catalog_only (oracle : DecodeOracle) (abi : List AbiItem)
    (labels : Labels) (fuel : Nat) (args : List Arg) :
    detectNestedCalls oracle abi labels fuel args =
      (nestedCandidates args).filterMap (tryDecodeNested oracle abi labels fuel) :=
  detectNestedCallsAux_eq (tryDecodeNested oracle abi labels fuel) args

/-- Counterexample to C9 as stated: with two same-named overloads in the
catalog, the descriptor that decodes the payload has no parameters, yet
the returned argument list is rebuilt from the other overload and has one
entry. -/
theorem c9_counterexample :
    resolveByCatalog oracle0 catalogOv (jsDrop "0x00112233" 10) =
      some (⟨"function", "foo", some []⟩, [])
    ∧ decodeCalldata oracle0 catalogOv [] env0 st0 1 "0x00112233" [] none =
        .ok (DecodedCall.mk "0x00112233" (some "foo") none
              [⟨"x", "uint256", Value.undef⟩] (some []), st0, [])
    ∧ ([⟨"x", "uint256", Value.undef⟩] : List Arg).length ≠ ([] : List Param).length :=
  ⟨rfl, rfl, by decide⟩

/-- Claim C9 (amended): when no plugin matches and a catalog descriptor's
parameter list decodes the payload, the returned argument list follows the
parameter list of the first function descriptor in the catalog bearing the
decoded name; whenever that first descriptor is the decoding descriptor
itself (in particular whenever function names are unique), the argument
list has the same length and order as its parameter list with each type
field equal to the declared parameter type. -/
theorem c9_catalog_args_follow_descriptor (oracle : DecodeOracle) (abi : List AbiItem)
    (decoders : List Decoder) (env : RemoteEnv) (st : SelectorState) (fuel : Nat)
    (data : String) (labels : Labels) (context : Option PartialDecodeContext)
    (item : AbiItem) (vals : List Value) (inputs : List Param)
    (hplug : decodeWithPlugins decoders data (mkPluginContext data labels context) = .ok none)
    (hcat : resolveByCatalog oracle abi (jsDrop data 10) = some (item, vals))
    (hfirst : abi.find? (fun it => it.type == "function" && it.name == item.name) = some item)
    (hinputs : item.inputs = some inputs) :
    decodeCalldata oracle abi decoders env st fuel data labels context =
      .ok (DecodedCall.mk (jsLower (jsTake data 10)) (some item.name) none
            (namedArgs vals inputs 0)
            (some (detectNestedCalls oracle abi labels fuel (namedArgs vals inputs 0))),
          st, [])
    ∧ (namedArgs vals inputs 0).length = inputs.length
    ∧ (namedArgs vals inputs 0).map Arg.type = inputs.map Param.type
    ∧ (namedArgs vals inputs 0).map Arg.name = inputs.map Param.name := by
  refine ⟨?_, namedArgs_length _ _ _, namedArgs_map_type _ _ _, namedArgs_map_name _ _ _⟩
  have hdfd : decodeFunctionData oracle abi data = .ok (item.name, vals) := by
    rw [decodeFunctionData, hcat]
  have hargs : catalogArgs abi item.name vals = namedArgs vals inputs 0 := by
    rw [catalogArgs, hfirst]
    simp only [hinputs]
  simp only [decodeCalldata]
  rw [hplug, hdfd]
  show Except.ok (DecodedCall.mk (jsLower (jsTake data 10)) (some item.name) none
      (catalogArgs abi item.name vals)
      (some (detectNestedCalls oracle abi labels fuel (catalogArgs abi item.name vals))),
    st, ([] : List (Remote × String))) = _
  rw [hargs]

/-- Witness for C9 (amended) on a one-descriptor catalog: one `uint256`
parameter decoded to 7 yields exactly one argument with the declared name
and type. -/
theorem c9_catalog_args_follow_descriptor_witness :
    decodeCalldata oracle2 abi3 [] env0 st0 1 "0x01020304" [] none =
      .ok (DecodedCall.mk "0x01020304" (some "h") none
            [⟨"x", "uint256", Value.vInt 7⟩] (some []), st0, []) :=
  (c9_catalog_args_follow_descriptor oracle2 abi3 [] env0 st0 1 "0x01020304" [] none
    ⟨"function", "h", some [⟨"x", "uint256"⟩]⟩ [Value.vInt 7] [⟨"x", "uint256"⟩]
    rfl rfl rfl rfl).1

end Txray